import Mathlib

/-!
Shallow embedding of the `triggr` backend (`app.py` and the auxiliary
`app/` package) in Lean 4, for checking the natural-language
specification against the code.

The program is a Flask application gluing together Supabase, Pinecone,
the R2R document API and the WhatsApp Business API.  Every outbound
call (database insert/select, vector upsert/query/delete, embeddings,
chat completions, message sends) is modelled either as an explicit
*effect* recorded in an effect trace, or as a value supplied by an
environment record standing for the remote service's response.
Python dictionaries are modelled as association lists of `PyVal`,
Python exceptions as `Except String`.
-/

namespace Triggr

/-- A Python/JSON-like value: strings, naturals, lists and dicts
(association lists).  Enough to represent every payload the
application builds or consumes. -/
inductive PyVal where
  | str (s : String)
  | num (n : Nat)
  | list (l : List PyVal)
  | dict (d : List (String × PyVal))

/-- An HTTP response: a JSON-ish body and a status code.  Flask's bare
`return jsonify(x)` is status 200. -/
structure HttpResponse where
  body : PyVal
  status : Nat

/-- The uniform error response produced by every handler's
`except Exception as e: return jsonify({"error": str(e)}), 500`. -/
def errResp (e : String) : HttpResponse :=
  ⟨.dict [("error", .str e)], 500⟩

/-- The webhook's success acknowledgement `jsonify({"status": "success"}), 200`. -/
def success200 : HttpResponse :=
  ⟨.dict [("status", .str "success")], 200⟩

/-- Python `d[k]` on a dict: the value, or a raised `KeyError`. -/
def keyGet (d : List (String × PyVal)) (k : String) : Except String PyVal :=
  match d.lookup k with
  | some v => .ok v
  | none => .error ("KeyError: " ++ k)

/-- Python `d.get(k)`: `none` models Python `None`. -/
def pyGetOpt (d : List (String × PyVal)) (k : String) : Option PyVal :=
  d.lookup k

/-- Python `d.get(k, dflt)`. -/
def pyGet (d : List (String × PyVal)) (k : String) (dflt : PyVal) : PyVal :=
  (d.lookup k).getD dflt

/-- Calling a dict method (`.get`) on a value: raises `AttributeError`
unless the value is a dict. -/
def asDict : PyVal → Except String (List (String × PyVal))
  | .dict d => .ok d
  | _ => .error "AttributeError"

/-- Iterating over a value with `for`: raises `TypeError` unless it is
a list. -/
def asList : PyVal → Except String (List PyVal)
  | .list l => .ok l
  | _ => .error "TypeError: not iterable"

/-- Python `v[k]` with a string key: key lookup on a dict, a raised
`TypeError` on anything else. -/
def pySubscript (v : PyVal) (k : String) : Except String PyVal :=
  match v with
  | .dict d => keyGet d k
  | _ => .error "TypeError: not subscriptable"

/-- Python `x == "lit"` where `x` is an arbitrary value: true exactly
when the value is that string. -/
def isStrEq (v : Option PyVal) (s : String) : Bool :=
  match v with
  | some (.str t) => t == s
  | _ => false

/-- Truthiness of an optional string request parameter (`if mode and
token:` in Python): present and non-empty. -/
def truthy : Option String → Bool
  | none => false
  | some s => s != ""

/-!
### `GET /whatsapp` — webhook verification  (`whatsapp_webhook`, app.py 206-219)
-/

/-- The GET branch of `whatsapp_webhook`: webhook verification
handshake.  `m`, `t`, `c` are `request.args.get` of `hub.mode`,
`hub.verify_token`, `hub.challenge`; `vt` is the configured
`WA_VERIFY_TOKEN`. -/
def whatsappVerify (m t c : Option String) (vt : String) : HttpResponse :=
  if truthy m && truthy t then
    if m == some "subscribe" && t == some vt then
      if truthy c then ⟨.str (c.getD ""), 200⟩
      else ⟨.str "No challenge found", 400⟩
    else ⟨.str "Invalid verification token", 403⟩
  else ⟨.str "Invalid parameters", 400⟩

/-!
### Registered routes (the `@app.route` decorators of app.py)
-/

/-- The (method, rule) pairs registered on the Flask app, in source
order: app.py lines 202, 271, 281, 400, 419. -/
def routes : List (String × String) :=
  [("GET", "/whatsapp"), ("POST", "/whatsapp"),
   ("GET", "/files"),
   ("POST", "/upload-files"),
   ("GET", "/test-pinecone"),
   ("DELETE", "/files/<file_id>")]

/-!
### `MessageProcessor.process_message` (app.py 139-200)

The four remote collaborators (Supabase, the embeddings endpoint, the
Pinecone query, the chat-completions endpoint) respond with values
supplied by a `RagEnv`; every call the function makes is recorded, in
program order, as a `RagEffect`.
-/

/-- One outbound call made by `process_message`, in program order. -/
inductive RagEffect where
  /-- `supabase.table("messages").insert(row).execute()` -/
  | insertMessage (row : List (String × String))
  /-- `supabase.table("messages").select... .eq("session_id", s).order("timestamp", desc).limit(n)` -/
  | selectHistory (sessionId : String) (limit : Nat)
  /-- POST `{R2R}/documents/embeddings` with `{"input": text}` -/
  | embedCall (input : String)
  /-- `vector_index.query(vector=v, top_k=k, include_metadata=True)` -/
  | vectorQuery (vector : List Int) (topK : Nat)
  /-- POST `{R2R}/chat/completions` with the given (role, content) prompt -/
  | llmCall (messages : List (String × String))

deriving instance DecidableEq for RagEffect

/-- Responses of the remote services during one `process_message`
call, plus the two generated md5 ids and utcnow timestamps. -/
structure RagEnv where
  /-- md5 id generated for the user message row -/
  msgId1 : String
  /-- `datetime.utcnow().isoformat()` at the user row -/
  ts1 : String
  /-- md5 id generated for the assistant message row -/
  msgId2 : String
  /-- `datetime.utcnow().isoformat()` at the assistant row -/
  ts2 : String
  /-- `chat_history.data`: rows returned by the history select (newest first) -/
  history : List (List (String × String))
  /-- embedding returned by `get_embedding` -/
  embedding : List Int
  /-- `search_results.matches`: each match's `metadata` dict -/
  queryMatches : List (List (String × String))
  /-- `response.json()['choices'][0]['message']['content']` from the LLM -/
  llmContent : String

/-- The `message_data` row inserted for the inbound user message
(app.py 145-151). -/
def userRow (env : RagEnv) (fromNumber messageText : String) : List (String × String) :=
  [("id", env.msgId1), ("session_id", fromNumber), ("role", "user"),
   ("content", messageText), ("timestamp", env.ts1)]

/-- The `assistant_message` row inserted for the generated reply
(app.py 187-193). -/
def assistantRow (env : RagEnv) (fromNumber : String) : List (String × String) :=
  [("id", env.msgId2), ("session_id", fromNumber), ("role", "assistant"),
   ("content", env.llmContent), ("timestamp", env.ts2)]

/-- `match.metadata['text']` for each Pinecone match (app.py 169);
`none` models the `KeyError` raised when a match lacks `text`. -/
def matchTexts (env : RagEnv) : Option (List String) :=
  env.queryMatches.mapM (fun m => m.lookup "text")

/-- `msg["role"], msg["content"]` for each history row (app.py 179);
`none` models the `KeyError` raised when a row lacks either key. -/
def historyPairs (env : RagEnv) : Option (List (String × String)) :=
  env.history.mapM (fun r =>
    (r.lookup "role").bind (fun ro => (r.lookup "content").map (fun co => (ro, co))))

/-- `MessageProcessor.process_message`: returns the effect trace (the
calls made, in order; a raised exception cuts the trace short) and the
reply, `none` when the body raised. -/
def processMessage (env : RagEnv) (fromNumber messageText : String) :
    List RagEffect × Option String :=
  let pre : List RagEffect :=
    [.insertMessage (userRow env fromNumber messageText),
     .selectHistory fromNumber 10,
     .embedCall messageText,
     .vectorQuery env.embedding 5]
  match matchTexts env with
  | none => (pre, none)
  | some texts =>
    match historyPairs env with
    | none => (pre, none)
    | some hist =>
      (pre ++
        [.llmCall
           (("system", "Use this context to help answer: " ++ String.intercalate " " texts)
             :: (hist.reverse ++ [("user", messageText)])),
         .insertMessage (assistantRow env fromNumber)],
       some env.llmContent)

/-!
### `upload_files` (app.py 281-398) and `allowed_file` (app.py 266-269)
-/

/-- Python `filename.rsplit('.', 1)[1]` on the character list: the
segment after the last dot. -/
def afterLastDot (l : List Char) : List Char :=
  (l.reverse.takeWhile (fun x => x != '.')).reverse

/-- `allowed_file(filename)`: `'.' in filename and
filename.rsplit('.', 1)[1].lower() in ALLOWED_EXTENSIONS` (the
filenames in play are ASCII, where Python `.lower()` is per-character
lowercasing). -/
def allowedFile (filename : String) : Bool :=
  filename.data.contains '.' &&
    ["txt", "pdf", "doc", "docx", "csv"].contains
      (String.mk ((afterLastDot filename.data).map Char.toLower))

/-- An uploaded `FileStorage`: its `filename` and `content_type`
(`""` models Python `None`). -/
structure UpFile where
  filename : String
  contentType : String

/-- Werkzeug `FileStorage.__bool__`: `bool(self.filename)`, so `if
file:` tests that the filename is non-empty. -/
def fileTruthy (f : UpFile) : Bool :=
  f.filename != ""

/-- One chunk returned by `GET {R2R}/documents/{id}/chunks`. -/
structure Chunk where
  embedding : List Int
  text : String

/-- One file of the request together with the R2R responses for it:
the ingest result (`document_id` or a raised error), the chunks
result, and the `utcnow` timestamp used for `upload_date`. -/
structure FileJob where
  file : UpFile
  ingest : Except String String
  chunks : Except String (List Chunk)
  ts : String

/-- A Pinecone vector as built in app.py 339-352. -/
structure Vector where
  id : String
  values : List Int
  metadata : List (String × PyVal)

/-- A store-mutating call made by `upload_files`. -/
inductive UpEffect where
  /-- `vector_index.upsert(vectors=vs)` -/
  | upsert (vectors : List Vector)
  /-- `supabase.table("documents").insert(doc).execute()` -/
  | insertDocument (doc : List (String × PyVal))

/-- The vector built for chunk `i` (app.py 341-352). -/
def mkVector (documentId filename : String) (i : Nat) (c : Chunk) : Vector :=
  { id := documentId ++ "-chunk-" ++ toString i
    values := c.embedding
    metadata := [("text", .str c.text), ("document_id", .str documentId),
                 ("chunk_index", .num i), ("filename", .str filename)] }

/-- The `for i, chunk in enumerate(chunks_data)` loop building the
vector list, with running index `i`. -/
def mkVectors (documentId filename : String) : Nat → List Chunk → List Vector
  | _, [] => []
  | i, c :: cs => mkVector documentId filename i c :: mkVectors documentId filename (i + 1) cs

/-- The `doc_data` record inserted into the `documents` table
(app.py 359-369). -/
def docData (documentId : String) (f : UpFile) (vectorIds : List String)
    (ts : String) (numChunks : Nat) : List (String × PyVal) :=
  [("id", .str documentId), ("name", .str f.filename),
   ("type", .str (if f.contentType == "" then "application/pdf" else f.contentType)),
   ("vector_ids", .list (vectorIds.map .str)),
   ("meta_info", .dict [("filename", .str f.filename), ("upload_date", .str ts),
                        ("num_chunks", .num numChunks)])]

/-- The per-file success entry appended to `results` (app.py 377-383). -/
def successEntry (documentId name : String) (numChunks : Nat) (vectorIds : List String) : PyVal :=
  .dict [("id", .str documentId), ("name", .str name), ("status", .str "success"),
         ("num_chunks", .num numChunks), ("vector_ids", .list (vectorIds.map .str))]

/-- The per-file error entry appended to `results` (app.py 387-391). -/
def errorEntry (name e : String) : PyVal :=
  .dict [("name", .str name), ("status", .str "error"), ("error", .str e)]

/-- One iteration of the `for file in files` loop: the store effects
it performs and the result entries (zero or one) it appends.  A file
failing `if file and allowed_file(file.filename)` is skipped; an
exception while processing is caught in the per-file `except` and
becomes an error entry.  (Saving and removing the temporary upload
file touches no persistent store and is not recorded.) -/
def processUploadFile (job : FileJob) : List UpEffect × List PyVal :=
  if fileTruthy job.file && allowedFile job.file.filename then
    match job.ingest with
    | .error e => ([], [errorEntry job.file.filename e])
    | .ok documentId =>
      match job.chunks with
      | .error e => ([], [errorEntry job.file.filename e])
      | .ok cs =>
        let vectors := mkVectors documentId job.file.filename 0 cs
        let vectorIds := vectors.map (·.id)
        ([.upsert vectors,
          .insertDocument (docData documentId job.file vectorIds job.ts vectors.length)],
         [successEntry documentId job.file.filename vectors.length vectorIds])
  else ([], [])

/-- The `upload_files` handler.  The request is `.error e` when
reading `request.files` raises, `.ok none` when `'files' not in
request.files`, and otherwise the list of files with their R2R
responses. -/
def uploadFiles (req : Except String (Option (List FileJob))) :
    List UpEffect × HttpResponse :=
  match req with
  | .error e => ([], errResp e)
  | .ok none => ([], ⟨.dict [("error", .str "No files provided")], 400⟩)
  | .ok (some jobs) =>
    let step := jobs.foldl
      (fun acc j =>
        let r := processUploadFile j
        (acc.1 ++ r.1, acc.2 ++ r.2)) (([], []) : List UpEffect × List PyVal)
    (step.1, ⟨.dict [("message", .str "Files processed"), ("files", .list step.2)], 200⟩)

/-!
### `POST /whatsapp` — inbound message delivery (app.py 221-260)

`process_message` is reached here only through
`asyncio.run(MessageProcessor.process_message(...))`, of which the
handler observes only the reply or the raised exception; the webhook
model therefore abstracts it (and `send_message_sync`) as outcome
functions in `WaEnv`.
-/

/-- Outcomes of the two remote operations performed per inbound
message. -/
structure WaEnv where
  /-- whether `WhatsAppAPI.send_message_sync(to, body)` raises -/
  sendFails : PyVal → String → Bool
  /-- outcome of `asyncio.run(MessageProcessor.process_message(from, text))` -/
  proc : PyVal → PyVal → Except Unit String

/-- An attempted `send_message_sync` call: recipient, body, and
whether it succeeded. -/
inductive WaEffect where
  | send (recipient : PyVal) (body : String) (ok : Bool)

/-- The immediate acknowledgment text (app.py 240). -/
def ackText : String := "Message received. Processing..."

/-- The apology text sent when RAG processing or the reply send fails
(app.py 252). -/
def apologyText : String := "Sorry, an error occurred while processing your message."

/-- One iteration of `for message in messages` (app.py 230-254).
Non-text messages are skipped.  For a text message the `"from"` and
`"text"]["body"]` subscripts happen before any `try`, so their
`KeyError`/`TypeError` propagates (`.error`); the acknowledgment send,
the RAG call and the reply send are each wrapped so their failures
only shape which sends are attempted. -/
def processOneWaMessage (env : WaEnv) (m : PyVal) : Except String (List WaEffect) :=
  match asDict m with
  | .error e => .error e
  | .ok md =>
    if isStrEq (pyGetOpt md "type") "text" then
      match keyGet md "from" with
      | .error e => .error e
      | .ok fromV =>
        match keyGet md "text" with
        | .error e => .error e
        | .ok textV =>
          match pySubscript textV "body" with
          | .error e => .error e
          | .ok bodyV =>
            let ackEff := WaEffect.send fromV ackText (!env.sendFails fromV ackText)
            match env.proc fromV bodyV with
            | .error _ =>
              .ok [ackEff,
                   WaEffect.send fromV apologyText (!env.sendFails fromV apologyText)]
            | .ok reply =>
              if env.sendFails fromV reply then
                .ok [ackEff, WaEffect.send fromV reply false,
                     WaEffect.send fromV apologyText (!env.sendFails fromV apologyText)]
              else
                .ok [ackEff, WaEffect.send fromV reply true]
    else .ok []

/-- The `for message in messages` loop over one change's messages. -/
def waMessages (env : WaEnv) : List PyVal → Except String (List WaEffect)
  | [] => .ok []
  | m :: ms =>
    match processOneWaMessage env m with
    | .error e => .error e
    | .ok effs =>
      match waMessages env ms with
      | .error e => .error e
      | .ok more => .ok (effs ++ more)

/-- The `for change in entry.get("changes", [])` loop:
`change.get("value", {}).get("messages", [])`, then the messages. -/
def waChanges (env : WaEnv) : List PyVal → Except String (List WaEffect)
  | [] => .ok []
  | c :: rest =>
    match asDict c with
    | .error e => .error e
    | .ok cd =>
      match asDict (pyGet cd "value" (.dict [])) with
      | .error e => .error e
      | .ok vd =>
        match asList (pyGet vd "messages" (.list [])) with
        | .error e => .error e
        | .ok msgs =>
          match waMessages env msgs with
          | .error e => .error e
          | .ok effs =>
            match waChanges env rest with
            | .error e => .error e
            | .ok more => .ok (effs ++ more)

/-- The `for entry in data.get("entry", [])` loop. -/
def waEntries (env : WaEnv) : List PyVal → Except String (List WaEffect)
  | [] => .ok []
  | e :: rest =>
    match asDict e with
    | .error err => .error err
    | .ok ed =>
      match asList (pyGet ed "changes" (.list [])) with
      | .error err => .error err
      | .ok cs =>
        match waChanges env cs with
        | .error err => .error err
        | .ok effs =>
          match waEntries env rest with
          | .error err => .error err
          | .ok more => .ok (effs ++ more)

/-- The body of the POST branch after the `object` check. -/
def waBody (env : WaEnv) (d : List (String × PyVal)) : Except String (List WaEffect) :=
  match asList (pyGet d "entry" (.list [])) with
  | .error e => .error e
  | .ok entries => waEntries env entries

/-- The POST branch of `whatsapp_webhook`.  The argument is `.error e`
when `request.json` (or the `object` access) raises; otherwise the
parsed top-level JSON dict.  A raise inside the loops is caught by the
handler-level `except` and becomes a 500 error response. -/
def whatsappPost (env : WaEnv) (data : Except String (List (String × PyVal))) :
    List WaEffect × HttpResponse :=
  match data with
  | .error e => ([], errResp e)
  | .ok d =>
    if isStrEq (pyGetOpt d "object") "whatsapp_business_account" then
      match waBody env d with
      | .ok effs => (effs, success200)
      | .error e => ([], errResp e)
    else ([], success200)

/-- A request to `/whatsapp`: the verification GET or a delivery POST. -/
inductive WaRequest where
  | get (mode token challenge : Option String)
  | post (data : Except String (List (String × PyVal)))

/-- The whole `whatsapp_webhook` handler. -/
def whatsappWebhook (env : WaEnv) (vt : String) : WaRequest → List WaEffect × HttpResponse
  | .get m t c => ([], whatsappVerify m t c vt)
  | .post d => whatsappPost env d

/-!
### `GET /files`, `GET /test-pinecone`, `DELETE /files/<file_id>`
(app.py 271-279, 400-417, 419-438)
-/

/-- `get_files`: the argument is the result of
`supabase.table("documents").select("*").execute()` (its `.data`), or
the exception it raised. -/
def getFiles (sel : Except String (List PyVal)) : HttpResponse :=
  match sel with
  | .ok rows => ⟨.list rows, 200⟩
  | .error e => errResp e

/-- `test_pinecone`: arguments are `describe_index_stats()` and the
`matches` of the dummy query (an empty match list and
`query_response.matches or []` coincide). -/
def testPinecone (stats : Except String PyVal) (query : Except String (List PyVal)) :
    HttpResponse :=
  match stats with
  | .error e => errResp e
  | .ok s =>
    match query with
    | .error e => errResp e
    | .ok ms =>
      ⟨.dict [("status", .str "success"), ("index_stats", s),
              ("sample_vectors", .list ms)], 200⟩

/-- A store-mutating call made by `delete_file`. -/
inductive DelEffect where
  /-- `httpx.delete({R2R}/documents/{r2r_doc_id})` -/
  | r2rDelete (docId : PyVal)
  /-- `vector_index.delete(ids=...)` -/
  | vectorDelete (ids : PyVal)
  /-- `supabase.table("documents").delete().eq("id", file_id).execute()` -/
  | tableDelete (fileId : String)

/-- `delete_file`: `docsRes` is the `.data` of the select for
`file_id` (or its raised exception).  No row gives the 404; otherwise
the R2R delete runs when `r2r_doc_id` is present, then the vector
delete and the table delete. -/
def deleteFile (docsRes : Except String (List (List (String × PyVal)))) (fileId : String) :
    List DelEffect × HttpResponse :=
  match docsRes with
  | .error e => ([], errResp e)
  | .ok [] => ([], ⟨.dict [("error", .str "Document not found")], 404⟩)
  | .ok (doc :: _) =>
    let r2rEffs := match doc.lookup "r2r_doc_id" with
      | some v => [DelEffect.r2rDelete v]
      | none => []
    match doc.lookup "vector_ids" with
    | none => (r2rEffs, errResp "KeyError: vector_ids")
    | some ids =>
      (r2rEffs ++ [DelEffect.vectorDelete ids, DelEffect.tableDelete fileId],
       ⟨.dict [("message", .str "Document deleted successfully")], 200⟩)

/-!
### Payload well-formedness for the webhook POST loops
-/

/-- A message the per-message loop survives: a dict which is either
non-text or carries `from` and a subscriptable `text` with `body`. -/
def msgOk (m : PyVal) : Bool :=
  match m with
  | .dict md =>
    if isStrEq (pyGetOpt md "type") "text" then
      (md.lookup "from").isSome &&
        (match md.lookup "text" with
         | some (.dict td) => (td.lookup "body").isSome
         | _ => false)
    else true
  | _ => false

/-- A change whose `value`/`messages` accesses succeed and whose
messages are all well-formed. -/
def changeOk (c : PyVal) : Bool :=
  match c with
  | .dict cd =>
    match pyGet cd "value" (.dict []) with
    | .dict vd =>
      match pyGet vd "messages" (.list []) with
      | .list ms => ms.all msgOk
      | _ => false
    | _ => false
  | _ => false

/-- An entry whose `changes` access succeeds and whose changes are all
well-formed. -/
def entryOk (e : PyVal) : Bool :=
  match e with
  | .dict ed =>
    match pyGet ed "changes" (.list []) with
    | .list cs => cs.all changeOk
    | _ => false
  | _ => false

/-- A POST payload the loops traverse without raising. -/
def dataOk (d : List (String × PyVal)) : Bool :=
  match pyGet d "entry" (.list []) with
  | .list es => es.all entryOk
  | _ => false

/-!
## Theorems
-/

/-- C10: for a `file_id` with no row in `documents`, `delete_file`
returns 404 with body `{"error": "Document not found"}` and performs
no deletion — the effect trace is empty, so the vector index and the
documents table are untouched. -/
theorem deleteFile_missing_row_404 (fileId : String) :
    deleteFile (.ok []) fileId =
      ([], ⟨.dict [("error", .str "Document not found")], 404⟩) := rfl

/-- C7 counterexample: the application registers no `POST /query`
route (nor a `POST /files` route), so the claimed route list does not
hold of the code. -/
theorem routes_no_post_query :
    ("POST", "/query") ∉ routes ∧ ("POST", "/files") ∉ routes := by decide

/-- C7 amended: the registered routes are exactly GET and POST
`/whatsapp`, GET `/files`, POST `/upload-files`, GET `/test-pinecone`
and DELETE `/files/<file_id>`; in particular `POST /files` and
`POST /query` are absent. -/
theorem routes_registered :
    ("GET", "/whatsapp") ∈ routes ∧ ("POST", "/whatsapp") ∈ routes ∧
    ("GET", "/files") ∈ routes ∧ ("POST", "/upload-files") ∈ routes ∧
    ("GET", "/test-pinecone") ∈ routes ∧ ("DELETE", "/files/<file_id>") ∈ routes ∧
    ("POST", "/files") ∉ routes ∧ ("POST", "/query") ∉ routes := by decide

/-- C4: the GET `/whatsapp` handler returns the `hub.challenge` value
(status 200) exactly when `hub.mode` and `hub.verify_token` are both
present (truthy), the mode is `subscribe`, the token matches, and a
challenge is present; it returns 403 when mode and token are present
but the mode/token check fails, and 400 when mode or token is missing
or when the check passes but no challenge was supplied. -/
theorem whatsappVerify_cases (m t c : Option String) (vt : String) :
    ((∃ ch, c = some ch ∧ whatsappVerify m t c vt = ⟨.str ch, 200⟩) ↔
       (truthy m = true ∧ truthy t = true ∧ m = some "subscribe" ∧ t = some vt ∧
        truthy c = true))
  ∧ ((whatsappVerify m t c vt).status = 403 ↔
       (truthy m = true ∧ truthy t = true ∧ ¬(m = some "subscribe" ∧ t = some vt)))
  ∧ ((whatsappVerify m t c vt).status = 400 ↔
       ((truthy m = false ∨ truthy t = false) ∨
        (m = some "subscribe" ∧ t = some vt ∧ truthy c = false))) := by
  unfold whatsappVerify
  split_ifs with hmt hst hc
  · -- mode/token truthy, check passed, challenge truthy
    rw [Bool.and_eq_true] at hmt
    rw [Bool.and_eq_true, beq_iff_eq, beq_iff_eq] at hst
    refine ⟨⟨fun _ => ⟨hmt.1, hmt.2, hst.1, hst.2, hc⟩, ?_⟩, ⟨?_, ?_⟩, ⟨?_, ?_⟩⟩
    · rintro ⟨-, -, -, -, hct⟩
      cases c with
      | none => exact absurd hct (by decide)
      | some ch => exact ⟨ch, rfl, rfl⟩
    · intro h
      simp at h
    · rintro ⟨-, -, hno⟩
      exact absurd ⟨hst.1, hst.2⟩ hno
    · intro h
      simp at h
    · rintro (h | ⟨-, -, hcf⟩)
      · rcases h with h | h
        · rw [hmt.1] at h
          exact absurd h (by decide)
        · rw [hmt.2] at h
          exact absurd h (by decide)
      · rw [hc] at hcf
        exact absurd hcf (by decide)
  · -- check passed but no truthy challenge: 400 "No challenge found"
    rw [Bool.and_eq_true] at hmt
    rw [Bool.and_eq_true, beq_iff_eq, beq_iff_eq] at hst
    rw [Bool.not_eq_true] at hc
    refine ⟨⟨?_, ?_⟩, ⟨?_, ?_⟩, ⟨fun _ => Or.inr ⟨hst.1, hst.2, hc⟩, fun _ => rfl⟩⟩
    · rintro ⟨ch, -, h⟩
      have h' := congrArg HttpResponse.status h
      simp at h'
    · rintro ⟨-, -, -, -, hct⟩
      rw [hc] at hct
      exact absurd hct (by decide)
    · intro h
      simp at h
    · rintro ⟨-, -, hno⟩
      exact absurd ⟨hst.1, hst.2⟩ hno
  · -- mode/token truthy but the subscribe/token check failed: 403
    rw [Bool.and_eq_true] at hmt
    simp only [Bool.and_eq_true, beq_iff_eq, not_and] at hst
    refine ⟨⟨?_, ?_⟩, ⟨fun _ => ⟨hmt.1, hmt.2, fun hp => hst hp.1 hp.2⟩, fun _ => rfl⟩,
            ⟨?_, ?_⟩⟩
    · rintro ⟨ch, -, h⟩
      have h' := congrArg HttpResponse.status h
      simp at h'
    · rintro ⟨-, -, h1, h2, -⟩
      exact (hst h1 h2).elim
    · intro h
      simp at h
    · rintro (h | ⟨h1, h2, -⟩)
      · rcases h with h | h
        · rw [hmt.1] at h
          exact absurd h (by decide)
        · rw [hmt.2] at h
          exact absurd h (by decide)
      · exact (hst h1 h2).elim
  · -- mode or token missing/empty: 400 "Invalid parameters"
    rw [Bool.and_eq_true, not_and_or, Bool.not_eq_true, Bool.not_eq_true] at hmt
    refine ⟨⟨?_, ?_⟩, ⟨?_, ?_⟩, ⟨fun _ => Or.inl hmt, fun _ => rfl⟩⟩
    · rintro ⟨ch, -, h⟩
      have h' := congrArg HttpResponse.status h
      simp at h'
    · rintro ⟨h1, h2, -, -, -⟩
      rcases hmt with h | h
      · rw [h1] at h
        exact absurd h (by decide)
      · rw [h2] at h
        exact absurd h (by decide)
    · intro h
      simp at h
    · rintro ⟨h1, h2, -⟩
      rcases hmt with h | h
      · rw [h1] at h
        exact absurd h (by decide)
      · rw [h2] at h
        exact absurd h (by decide)

/-- C4 witness: a concrete verification request with matching mode,
token and challenge receives the challenge back with status 200. -/
theorem whatsappVerify_cases_witness :
    whatsappVerify (some "subscribe") (some "tok") (some "42") "tok" = ⟨.str "42", 200⟩ := by
  obtain ⟨ch, hch, hresp⟩ :=
    (whatsappVerify_cases (some "subscribe") (some "tok") (some "42") "tok").1.mpr
      ⟨by decide, by decide, rfl, rfl, by decide⟩
  injection hch with hch
  rw [← hch] at hresp
  exact hresp

/-- C1: on an inbound WhatsApp text message, `process_message`
performs, in this order: insert the user message row keyed by the
sender's number, select the chat history for that number (limit 10),
embed the query text, query the vector index with that embedding and
`top_k = 5`, call the chat-completions endpoint with a prompt built
from the joined `text` metadata of the matches, the (reversed)
history, and the current message, insert the assistant reply under the
same session, and return that reply. -/
theorem process_message_pipeline (env : RagEnv) (fromNumber messageText : String)
    (texts : List String) (hist : List (String × String))
    (hm : matchTexts env = some texts) (hh : historyPairs env = some hist) :
    processMessage env fromNumber messageText =
      ([.insertMessage [("id", env.msgId1), ("session_id", fromNumber), ("role", "user"),
                        ("content", messageText), ("timestamp", env.ts1)],
        .selectHistory fromNumber 10,
        .embedCall messageText,
        .vectorQuery env.embedding 5,
        .llmCall
          (("system", "Use this context to help answer: " ++ String.intercalate " " texts)
            :: (hist.reverse ++ [("user", messageText)])),
        .insertMessage [("id", env.msgId2), ("session_id", fromNumber), ("role", "assistant"),
                        ("content", env.llmContent), ("timestamp", env.ts2)]],
       some env.llmContent) := by
  unfold processMessage
  rw [hm, hh]
  rfl

/-- Concrete environment exercising the RAG pipeline: two Pinecone
matches and a one-row history. -/
def ragEnvW : RagEnv :=
  { msgId1 := "m1", ts1 := "t1", msgId2 := "m2", ts2 := "t2",
    history := [[("id", "h0"), ("session_id", "155"), ("role", "assistant"),
                 ("content", "earlier"), ("timestamp", "t0")]],
    embedding := [1, 2],
    queryMatches := [[("text", "alpha")], [("text", "beta")]],
    llmContent := "the reply" }

/-- C1 witness: the pipeline evaluated on the concrete environment. -/
theorem process_message_pipeline_witness :
    processMessage ragEnvW "155" "hello" =
      ([.insertMessage [("id", "m1"), ("session_id", "155"), ("role", "user"),
                        ("content", "hello"), ("timestamp", "t1")],
        .selectHistory "155" 10,
        .embedCall "hello",
        .vectorQuery [1, 2] 5,
        .llmCall [("system", "Use this context to help answer: alpha beta"),
                  ("assistant", "earlier"), ("user", "hello")],
        .insertMessage [("id", "m2"), ("session_id", "155"), ("role", "assistant"),
                        ("content", "the reply"), ("timestamp", "t2")]],
       some "the reply") :=
  process_message_pipeline ragEnvW "155" "hello" ["alpha", "beta"]
    [("assistant", "earlier")] rfl rfl

/-- C6: every row the program inserts into the `messages` table (the
two inserts of `process_message` are the only writers) has exactly the
fields id, session_id, role, content, timestamp; its `session_id` is
the sender's phone number — so the user message and the assistant
reply share one session — and its role is `user` or `assistant`. -/
theorem messages_rows_shape (env : RagEnv) (fromNumber messageText : String)
    (row : List (String × String))
    (h : RagEffect.insertMessage row ∈ (processMessage env fromNumber messageText).1) :
    row.map Prod.fst = ["id", "session_id", "role", "content", "timestamp"] ∧
    row.lookup "session_id" = some fromNumber ∧
    (row.lookup "role" = some "user" ∨ row.lookup "role" = some "assistant") := by
  have hu : (userRow env fromNumber messageText).map Prod.fst =
        ["id", "session_id", "role", "content", "timestamp"] ∧
      (userRow env fromNumber messageText).lookup "session_id" = some fromNumber ∧
      ((userRow env fromNumber messageText).lookup "role" = some "user" ∨
       (userRow env fromNumber messageText).lookup "role" = some "assistant") :=
    ⟨rfl, rfl, Or.inl rfl⟩
  have ha : (assistantRow env fromNumber).map Prod.fst =
        ["id", "session_id", "role", "content", "timestamp"] ∧
      (assistantRow env fromNumber).lookup "session_id" = some fromNumber ∧
      ((assistantRow env fromNumber).lookup "role" = some "user" ∨
       (assistantRow env fromNumber).lookup "role" = some "assistant") :=
    ⟨rfl, rfl, Or.inr rfl⟩
  unfold processMessage at h
  rcases hmt : matchTexts env with _ | texts <;> rw [hmt] at h
  · simp only [List.mem_cons, List.not_mem_nil, or_false] at h
    rcases h with h | h | h | h
    · injection h with h
      exact h ▸ hu
    · exact absurd h (by simp)
    · exact absurd h (by simp)
    · exact absurd h (by simp)
  · rcases hht : historyPairs env with _ | hist <;> rw [hht] at h
    · simp only [List.mem_cons, List.not_mem_nil, or_false] at h
      rcases h with h | h | h | h
      · injection h with h
        exact h ▸ hu
      · exact absurd h (by simp)
      · exact absurd h (by simp)
      · exact absurd h (by simp)
    · simp only [List.cons_append, List.nil_append, List.mem_cons,
                 List.not_mem_nil, or_false] at h
      rcases h with h | h | h | h | h | h
      · injection h with h
        exact h ▸ hu
      · exact absurd h (by simp)
      · exact absurd h (by simp)
      · exact absurd h (by simp)
      · exact absurd h (by simp)
      · injection h with h
        exact h ▸ ha

/-- C6 witness: the shape facts for the concrete user row inserted by
the pipeline on `ragEnvW`. -/
theorem messages_rows_shape_witness :
    ([("id", "m1"), ("session_id", "155"), ("role", "user"), ("content", "hello"),
      ("timestamp", "t1")] : List (String × String)).lookup "session_id" = some "155" :=
  (messages_rows_shape ragEnvW "155" "hello"
    [("id", "m1"), ("session_id", "155"), ("role", "user"), ("content", "hello"),
     ("timestamp", "t1")] (by decide)).2.1

/-- The enumerate loop produces one vector per chunk. -/
theorem mkVectors_length (d f : String) (s : Nat) (cs : List Chunk) :
    (mkVectors d f s cs).length = cs.length := by
  induction cs generalizing s with
  | nil => rfl
  | cons c cs ih => simp [mkVectors, ih]

/-- The vector at position `i` of the enumerate loop started at `s`
is the vector built for chunk `i` with running index `s + i`. -/
theorem mkVectors_get (d f : String) (s : Nat) (cs : List Chunk) (i : Nat)
    (hi : i < cs.length) :
    (mkVectors d f s cs).get ⟨i, by rw [mkVectors_length]; exact hi⟩ =
      mkVector d f (s + i) (cs.get ⟨i, hi⟩) := by
  induction cs generalizing s i with
  | nil => exact absurd hi (by simp)
  | cons c cs ih =>
    cases i with
    | zero => rfl
    | succ j =>
      have hj : j < cs.length := by simpa using hi
      have hstep := ih (s + 1) j hj
      simpa [mkVectors, Nat.add_assoc, Nat.add_comm 1 j] using hstep

/-- C2: for a file passing the upload check whose ingestion yields
document id `documentId` and chunk list `cs` (length `n`), the handler
upserts exactly one vector per chunk — vector `i` having id
`{documentId}-chunk-{i}` and metadata with the chunk's text, the
document id, the chunk index and the filename — then persists a
document record holding exactly that list of vector ids and
`num_chunks = n`, and reports the same id, vector ids and chunk count
in its per-file success entry. -/
theorem upload_success_vectors (job : FileJob) (documentId : String) (cs : List Chunk)
    (hc : (fileTruthy job.file && allowedFile job.file.filename) = true)
    (hi : job.ingest = .ok documentId) (hk : job.chunks = .ok cs) :
    processUploadFile job =
      ([.upsert (mkVectors documentId job.file.filename 0 cs),
        .insertDocument (docData documentId job.file
          ((mkVectors documentId job.file.filename 0 cs).map (·.id)) job.ts cs.length)],
       [successEntry documentId job.file.filename cs.length
          ((mkVectors documentId job.file.filename 0 cs).map (·.id))]) ∧
    (mkVectors documentId job.file.filename 0 cs).length = cs.length ∧
    (∀ i (hilt : i < cs.length),
      ((mkVectors documentId job.file.filename 0 cs).get
          ⟨i, by rw [mkVectors_length]; exact hilt⟩).id =
        documentId ++ "-chunk-" ++ toString i ∧
      ((mkVectors documentId job.file.filename 0 cs).get
          ⟨i, by rw [mkVectors_length]; exact hilt⟩).metadata =
        [("text", .str (cs.get ⟨i, hilt⟩).text), ("document_id", .str documentId),
         ("chunk_index", .num i), ("filename", .str job.file.filename)]) ∧
    (docData documentId job.file
        ((mkVectors documentId job.file.filename 0 cs).map (·.id)) job.ts
        cs.length).lookup "vector_ids" =
      some (.list (((mkVectors documentId job.file.filename 0 cs).map (·.id)).map .str)) := by
  refine ⟨?_, mkVectors_length documentId job.file.filename 0 cs, ?_, rfl⟩
  · unfold processUploadFile
    rw [if_pos hc, hi, hk]
    simp only [mkVectors_length]
  · intro i hilt
    have hget := mkVectors_get documentId job.file.filename 0 cs i hilt
    rw [Nat.zero_add] at hget
    rw [hget]
    exact ⟨rfl, rfl⟩

/-- A concrete upload: a `.txt` file whose ingestion yields id `doc1`
and two chunks. -/
def fileW : UpFile := { filename := "notes.txt", contentType := "text/plain" }

/-- The upload job for `fileW`. -/
def jobW : FileJob :=
  { file := fileW, ingest := .ok "doc1",
    chunks := .ok [{ embedding := [1], text := "alpha" },
                   { embedding := [2], text := "beta" }],
    ts := "T0" }

/-- C2 witness: the handler's effects and result entry for `jobW`,
fully evaluated. -/
theorem upload_success_vectors_witness :
    processUploadFile jobW =
      ([.upsert [{ id := "doc1-chunk-0", values := [1],
                   metadata := [("text", .str "alpha"), ("document_id", .str "doc1"),
                                ("chunk_index", .num 0), ("filename", .str "notes.txt")] },
                 { id := "doc1-chunk-1", values := [2],
                   metadata := [("text", .str "beta"), ("document_id", .str "doc1"),
                                ("chunk_index", .num 1), ("filename", .str "notes.txt")] }],
        .insertDocument
          [("id", .str "doc1"), ("name", .str "notes.txt"), ("type", .str "text/plain"),
           ("vector_ids", .list [.str "doc1-chunk-0", .str "doc1-chunk-1"]),
           ("meta_info", .dict [("filename", .str "notes.txt"), ("upload_date", .str "T0"),
                                ("num_chunks", .num 2)])]],
       [.dict [("id", .str "doc1"), ("name", .str "notes.txt"), ("status", .str "success"),
               ("num_chunks", .num 2),
               ("vector_ids", .list [.str "doc1-chunk-0", .str "doc1-chunk-1"])]]) :=
  (upload_success_vectors jobW "doc1"
    [{ embedding := [1], text := "alpha" }, { embedding := [2], text := "beta" }]
    (by decide) rfl rfl).1

/-- C8: a file of an upload request is processed — and contributes an
entry to the returned results — exactly when its filename is non-empty
(the `FileStorage` truthiness test), contains a dot, and has a final
extension whose lowercase form is txt, pdf, doc, docx or csv; a file
failing the check contributes nothing: no result entry and no store
effect. -/
theorem upload_filter (job : FileJob) :
    ((processUploadFile job).2 ≠ [] ↔
      (job.file.filename ≠ "" ∧ '.' ∈ job.file.filename.data ∧
       String.mk ((afterLastDot job.file.filename.data).map Char.toLower) ∈
         ["txt", "pdf", "doc", "docx", "csv"])) ∧
    ((processUploadFile job).2 = [] → processUploadFile job = ([], [])) := by
  have hiff : (fileTruthy job.file && allowedFile job.file.filename) = true ↔
      (job.file.filename ≠ "" ∧ '.' ∈ job.file.filename.data ∧
       String.mk ((afterLastDot job.file.filename.data).map Char.toLower) ∈
         ["txt", "pdf", "doc", "docx", "csv"]) := by
    simp [fileTruthy, allowedFile, Bool.and_eq_true, bne_iff_ne, and_assoc,
          List.elem_iff]
  by_cases hcheck : (fileTruthy job.file && allowedFile job.file.filename) = true
  · have hne : (processUploadFile job).2 ≠ [] := by
      unfold processUploadFile
      rw [if_pos hcheck]
      rcases job.ingest with e | documentId
      · simp
      · rcases job.chunks with e | cs <;> simp
    exact ⟨⟨fun _ => hiff.mp hcheck, fun _ => hne⟩, fun h => absurd h hne⟩
  · have hskip : processUploadFile job = ([], []) := by
      unfold processUploadFile
      rw [if_neg hcheck]
    refine ⟨⟨fun h => absurd (by rw [hskip]) h, fun h => absurd (hiff.mpr h) hcheck⟩,
            fun _ => hskip⟩

/-- A file skipped by the upload check: disallowed extension. -/
def jobSkip : FileJob :=
  { file := { filename := "virus.exe", contentType := "application/octet-stream" },
    ingest := .ok "doc2", chunks := .ok [], ts := "T1" }

/-- C8 witness: the skipped file produces no result entry and no store
effect. -/
theorem upload_filter_witness : processUploadFile jobSkip = ([], []) :=
  (upload_filter jobSkip).2 rfl

/-- The top-level keys of every persisted document record. -/
theorem docData_keys (documentId : String) (f : UpFile) (ids : List String)
    (ts : String) (n : Nat) :
    (docData documentId f ids ts n).map Prod.fst =
      ["id", "name", "type", "vector_ids", "meta_info"] := rfl

/-- C5 counterexample: the document record actually persisted for the
concrete upload `jobW` has the top-level fields id, name, type,
vector_ids, meta_info only — it contains no `size`, `owner` or
top-level `timestamp` field, contradicting the claimed record shape. -/
theorem doc_record_missing_size_owner :
    UpEffect.insertDocument
        (docData "doc1" fileW ["doc1-chunk-0", "doc1-chunk-1"] "T0" 2) ∈
      (processUploadFile jobW).1 ∧
    "size" ∉ (docData "doc1" fileW ["doc1-chunk-0", "doc1-chunk-1"] "T0" 2).map Prod.fst ∧
    "owner" ∉ (docData "doc1" fileW ["doc1-chunk-0", "doc1-chunk-1"] "T0" 2).map Prod.fst ∧
    "timestamp" ∉
      (docData "doc1" fileW ["doc1-chunk-0", "doc1-chunk-1"] "T0" 2).map Prod.fst := by
  refine ⟨?_, by decide, by decide, by decide⟩
  exact List.Mem.tail _ (List.Mem.head _)

/-- C5 amended: every document record the program persists has
exactly the top-level fields id, name, type, vector_ids (the
externally generated chunk/vector ids) and meta_info, the latter
holding filename, upload_date (the timestamp) and num_chunks; size
and owner are not stored. -/
theorem doc_record_fields (job : FileJob) (dd : List (String × PyVal))
    (h : UpEffect.insertDocument dd ∈ (processUploadFile job).1) :
    dd.map Prod.fst = ["id", "name", "type", "vector_ids", "meta_info"] ∧
    "size" ∉ dd.map Prod.fst ∧ "owner" ∉ dd.map Prod.fst ∧
    (∃ mi, dd.lookup "meta_info" = some (.dict mi) ∧
      mi.map Prod.fst = ["filename", "upload_date", "num_chunks"]) := by
  unfold processUploadFile at h
  by_cases hcheck : (fileTruthy job.file && allowedFile job.file.filename) = true
  · rw [if_pos hcheck] at h
    rcases hi : job.ingest with e | documentId <;> rw [hi] at h
    · simp at h
    · rcases hk : job.chunks with e | cs <;> rw [hk] at h
      · simp at h
      · simp only [List.mem_cons, List.not_mem_nil, or_false] at h
        rcases h with h | h
        · exact absurd h (by simp)
        · injection h with h
          rw [h]
          refine ⟨rfl, ?_, ?_, ⟨_, rfl, rfl⟩⟩
          · rw [docData_keys]
            decide
          · rw [docData_keys]
            decide
  · rw [if_neg hcheck] at h
    simp at h

/-- C5 amended witness: the field list of the record persisted for the
concrete upload `jobW`. -/
theorem doc_record_fields_witness :
    (docData "doc1" fileW ["doc1-chunk-0", "doc1-chunk-1"] "T0" 2).map Prod.fst =
      ["id", "name", "type", "vector_ids", "meta_info"] :=
  (doc_record_fields jobW (docData "doc1" fileW ["doc1-chunk-0", "doc1-chunk-1"] "T0" 2)
    (List.Mem.tail _ (List.Mem.head _))).1

/-- A well-formed message is handled without raising: its field
accesses succeed, and the ack/RAG/reply failures are all caught. -/
theorem processOneWaMessage_ok (env : WaEnv) (m : PyVal) (h : msgOk m = true) :
    ∃ effs, processOneWaMessage env m = .ok effs := by
  cases m with
  | str s => simp [msgOk] at h
  | num n => simp [msgOk] at h
  | list l => simp [msgOk] at h
  | dict md =>
    simp only [msgOk] at h
    unfold processOneWaMessage
    simp only [asDict]
    by_cases ht : isStrEq (pyGetOpt md "type") "text" = true
    · rw [if_pos ht] at h
      rw [if_pos ht]
      rw [Bool.and_eq_true] at h
      obtain ⟨h1, h2⟩ := h
      rcases hf : md.lookup "from" with _ | fromV
      · rw [hf] at h1
        exact absurd h1 (by decide)
      · split at h2
        · rename_i td heq
          rcases hb : td.lookup "body" with _ | bodyV
          · rw [hb] at h2
            exact absurd h2 (by decide)
          · simp only [keyGet, pySubscript, hf, heq, hb]
            rcases hp : env.proc fromV bodyV with u | reply
            · exact ⟨_, rfl⟩
            · by_cases hs : env.sendFails fromV reply = true
              · exact ⟨[WaEffect.send fromV ackText (!env.sendFails fromV ackText),
                        WaEffect.send fromV reply false,
                        WaEffect.send fromV apologyText (!env.sendFails fromV apologyText)],
                       by simp [hs]⟩
              · exact ⟨[WaEffect.send fromV ackText (!env.sendFails fromV ackText),
                        WaEffect.send fromV reply true], by simp [hs]⟩
        · exact absurd h2 (by decide)
    · rw [if_neg ht]
      exact ⟨[], rfl⟩

/-- A list of well-formed messages is traversed without raising. -/
theorem waMessages_ok (env : WaEnv) (ms : List PyVal) (h : ms.all msgOk = true) :
    ∃ effs, waMessages env ms = .ok effs := by
  induction ms with
  | nil => exact ⟨[], rfl⟩
  | cons m ms ih =>
    rw [List.all_cons, Bool.and_eq_true] at h
    obtain ⟨effs1, h1⟩ := processOneWaMessage_ok env m h.1
    obtain ⟨effs2, h2⟩ := ih h.2
    exact ⟨effs1 ++ effs2, by simp only [waMessages, h1, h2]⟩

/-- A list of well-formed changes is traversed without raising. -/
theorem waChanges_ok (env : WaEnv) (cs : List PyVal) (h : cs.all changeOk = true) :
    ∃ effs, waChanges env cs = .ok effs := by
  induction cs with
  | nil => exact ⟨[], rfl⟩
  | cons c rest ih =>
    rw [List.all_cons, Bool.and_eq_true] at h
    obtain ⟨hc, hrest⟩ := h
    obtain ⟨effs2, h2⟩ := ih hrest
    cases c with
    | str s => simp [changeOk] at hc
    | num n => simp [changeOk] at hc
    | list l => simp [changeOk] at hc
    | dict cd =>
      simp only [changeOk] at hc
      rcases hv : pyGet cd "value" (.dict []) with s | n | l | vd <;>
        simp only [hv] at hc
      · exact absurd hc (by decide)
      · exact absurd hc (by decide)
      · exact absurd hc (by decide)
      · rcases hm : pyGet vd "messages" (.list []) with s | n | ms | dd <;>
          simp only [hm] at hc
        · exact absurd hc (by decide)
        · exact absurd hc (by decide)
        · obtain ⟨effs1, h1⟩ := waMessages_ok env ms hc
          exact ⟨effs1 ++ effs2,
            by simp only [waChanges, asDict, asList, hv, hm, h1, h2]⟩
        · exact absurd hc (by decide)

/-- A list of well-formed entries is traversed without raising. -/
theorem waEntries_ok (env : WaEnv) (es : List PyVal) (h : es.all entryOk = true) :
    ∃ effs, waEntries env es = .ok effs := by
  induction es with
  | nil => exact ⟨[], rfl⟩
  | cons e rest ih =>
    rw [List.all_cons, Bool.and_eq_true] at h
    obtain ⟨he, hrest⟩ := h
    obtain ⟨effs2, h2⟩ := ih hrest
    cases e with
    | str s => simp [entryOk] at he
    | num n => simp [entryOk] at he
    | list l => simp [entryOk] at he
    | dict ed =>
      simp only [entryOk] at he
      rcases hcs : pyGet ed "changes" (.list []) with s | n | cs | dd <;>
        simp only [hcs] at he
      · exact absurd he (by decide)
      · exact absurd he (by decide)
      · obtain ⟨effs1, h1⟩ := waChanges_ok env cs he
        exact ⟨effs1 ++ effs2,
          by simp only [waEntries, asDict, asList, hcs, h1, h2]⟩
      · exact absurd he (by decide)

/-- A well-formed payload is traversed without raising. -/
theorem waBody_ok (env : WaEnv) (d : List (String × PyVal)) (h : dataOk d = true) :
    ∃ effs, waBody env d = .ok effs := by
  unfold dataOk at h
  unfold waBody
  rcases he : pyGet d "entry" (.list []) with s | n | es | dd <;>
    simp only [he] at h ⊢
  · exact absurd h (by decide)
  · exact absurd h (by decide)
  · obtain ⟨effs, h1⟩ := waEntries_ok env es h
    exact ⟨effs, by simp only [asList, h1]⟩
  · exact absurd h (by decide)

/-- Environment in which every WhatsApp send raises and the RAG call
raises too. -/
def waEnvW : WaEnv := { sendFails := fun _ _ => true, proc := fun _ _ => .error () }

/-- A well-formed inbound text message. -/
def waMsgW : PyVal :=
  .dict [("type", .str "text"), ("from", .str "155"),
         ("text", .dict [("body", .str "hi")])]

/-- A well-formed webhook payload delivering `waMsgW`. -/
def waDataW : List (String × PyVal) :=
  [("object", .str "whatsapp_business_account"),
   ("entry", .list
      [.dict [("changes", .list
        [.dict [("value", .dict [("messages", .list [waMsgW])])]])]])]

/-- Environment in which the remote calls all succeed. -/
def waEnvC : WaEnv := { sendFails := fun _ _ => false, proc := fun _ _ => .ok "reply" }

/-- A payload whose only message is a text message without a `from`
field. -/
def waDataC : List (String × PyVal) :=
  [("object", .str "whatsapp_business_account"),
   ("entry", .list
      [.dict [("changes", .list
        [.dict [("value", .dict
          [("messages", .list [.dict [("type", .str "text")]])])]])]])]

/-- C9 counterexample: a parsed POST body with the right `object` but
whose text message lacks `from` makes the handler answer 500, not 200:
the `message["from"]` access happens before the per-message `try`
blocks, so its `KeyError` escapes to the handler-level `except`. -/
theorem whatsapp_post_malformed_500 :
    isStrEq (pyGetOpt waDataC "object") "whatsapp_business_account" = true ∧
    whatsappPost waEnvC (.ok waDataC) = ([], errResp "KeyError: from") ∧
    (whatsappPost waEnvC (.ok waDataC)).2 ≠ success200 :=
  ⟨rfl, rfl, fun hcontra => absurd (congrArg HttpResponse.status hcontra) (by decide)⟩

/-- Unfolding of the POST branch on a successfully parsed body. -/
theorem whatsappPost_ok_eq (env : WaEnv) (d : List (String × PyVal)) :
    whatsappPost env (.ok d) =
      if isStrEq (pyGetOpt d "object") "whatsapp_business_account" then
        match waBody env d with
        | .ok effs => (effs, success200)
        | .error e => ([], errResp e)
      else ([], success200) := rfl

/-- C9 amended: for a parsed POST body with object
`whatsapp_business_account` whose payload is well-formed (each
container has the expected shape and each text message carries `from`
and a `text` dict with `body`), the handler returns 200
`{"status": "success"}` even when acknowledgment sending, RAG
processing or reply sending raises for any contained message — those
exceptions are caught per message, a RAG failure triggering at most an
apology send — and non-text messages are skipped without any send;
a field access on a malformed message instead raises out of the loop
and yields the 500 error response. -/
theorem whatsapp_post_contains_errors (env : WaEnv) (d : List (String × PyVal))
    (m : PyVal) (md : List (String × PyVal)) (fromV textV bodyV : PyVal) :
    (dataOk d = true → (whatsappPost env (.ok d)).2 = success200) ∧
    (msgOk m = true → ∃ effs, processOneWaMessage env m = .ok effs) ∧
    (isStrEq (pyGetOpt md "type") "text" = false →
       processOneWaMessage env (.dict md) = .ok []) ∧
    (isStrEq (pyGetOpt md "type") "text" = true →
       md.lookup "from" = some fromV → md.lookup "text" = some textV →
       pySubscript textV "body" = .ok bodyV → env.proc fromV bodyV = .error () →
       processOneWaMessage env (.dict md) = .ok
         [WaEffect.send fromV ackText (!env.sendFails fromV ackText),
          WaEffect.send fromV apologyText (!env.sendFails fromV apologyText)]) := by
  refine ⟨?_, processOneWaMessage_ok env m, ?_, ?_⟩
  · intro hd
    rw [whatsappPost_ok_eq]
    by_cases hobj : isStrEq (pyGetOpt d "object") "whatsapp_business_account" = true
    · rw [if_pos hobj]
      obtain ⟨effs, hb⟩ := waBody_ok env d hd
      simp only [hb]
    · rw [if_neg hobj]
  · intro hnt
    unfold processOneWaMessage
    simp only [asDict]
    rw [if_neg (by simp [hnt])]
  · intro ht hfr htx hbv hpr
    unfold processOneWaMessage
    simp only [asDict]
    rw [if_pos ht]
    simp only [keyGet, hfr, htx, hbv, hpr]

/-- C9 amended witness: a concrete well-formed payload still gets
`{"status": "success"}`, 200 when every send and the RAG call raise. -/
theorem whatsapp_post_contains_errors_witness :
    (whatsappPost waEnvW (.ok waDataW)).2 = success200 :=
  (whatsapp_post_contains_errors waEnvW waDataW waMsgW [] (.num 0) (.num 0) (.num 0)).1 rfl

/-- C3: every handler of the application wraps its body in
`try/except`, mapping a raised exception `e` to the JSON body
`{"error": str(e)}` with status 500; no exception escapes — each
handler's result is one of its normal responses or that error
response.  (`upload_files` also has the 400 "No files provided"
answer, `delete_file` the 404.) -/
theorem handlers_catch_exceptions :
    (∀ e : String, getFiles (.error e) = errResp e) ∧
    (∀ e : String, uploadFiles (.error e) = ([], errResp e)) ∧
    (∀ (e : String) (q : Except String (List PyVal)), testPinecone (.error e) q = errResp e) ∧
    (∀ (e : String) (s : PyVal), testPinecone (.ok s) (.error e) = errResp e) ∧
    (∀ (e fid : String), deleteFile (.error e) fid = ([], errResp e)) ∧
    (∀ (env : WaEnv) (vt e : String),
       whatsappWebhook env vt (.post (.error e)) = ([], errResp e)) ∧
    (∀ (env : WaEnv) (d : List (String × PyVal)),
       (whatsappPost env (.ok d)).2 = success200 ∨
       ∃ e, (whatsappPost env (.ok d)).2 = errResp e) ∧
    (∀ req : Except String (Option (List FileJob)),
       (uploadFiles req).2.status = 200 ∨ (uploadFiles req).2.status = 400 ∨
       ∃ e, (uploadFiles req).2 = errResp e) ∧
    (∀ (docsRes : Except String (List (List (String × PyVal)))) (fid : String),
       (deleteFile docsRes fid).2.status = 200 ∨ (deleteFile docsRes fid).2.status = 404 ∨
       ∃ e, (deleteFile docsRes fid).2 = errResp e) ∧
    (∀ sel : Except String (List PyVal),
       (getFiles sel).status = 200 ∨ ∃ e, getFiles sel = errResp e) := by
  refine ⟨fun e => rfl, fun e => rfl, fun e q => rfl, fun e s => rfl, fun e fid => rfl,
          fun env vt e => rfl, ?_, ?_, ?_, ?_⟩
  · intro env d
    rw [whatsappPost_ok_eq]
    by_cases hobj : isStrEq (pyGetOpt d "object") "whatsapp_business_account" = true
    · rw [if_pos hobj]
      rcases hwb : waBody env d with e | effs <;> simp only [hwb]
      · exact Or.inr ⟨e, rfl⟩
      · exact Or.inl trivial
    · rw [if_neg hobj]
      exact Or.inl rfl
  · intro req
    rcases req with e | opt
    · exact Or.inr (Or.inr ⟨e, rfl⟩)
    · rcases opt with _ | jobs
      · exact Or.inr (Or.inl rfl)
      · exact Or.inl rfl
  · intro docsRes fid
    rcases docsRes with e | docs
    · exact Or.inr (Or.inr ⟨e, rfl⟩)
    · rcases docs with _ | ⟨doc, rest⟩
      · exact Or.inr (Or.inl rfl)
      · unfold deleteFile
        rcases hv : doc.lookup "vector_ids" with _ | ids <;> simp only [hv]
        · exact Or.inr (Or.inr ⟨"KeyError: vector_ids", rfl⟩)
        · exact Or.inl trivial
  · intro sel
    rcases sel with e | rows
    · exact Or.inr ⟨e, rfl⟩
    · exact Or.inl rfl

end Triggr
